import Mathlib

/-
Verification of the goal-alert and ACCA Telegram bots.

Shallow embedding of `bot_telegram_goal_alert.py` and `bot_telegram_acca.py`:
pure heuristics become Lean functions over ℚ (exact idealization of the
Python float arithmetic, which is exact here for the integer-valued and
small-denominator quantities involved) or over ℝ where a real-valued
exponent appears; the polling loop becomes an explicit state-transition
function over an association-list state, with the network (fixture fetch,
statistics fetch) supplied as oracle parameters and outgoing Telegram
messages recorded as an event list.
-/

namespace GoalAlert

/-- Round-half-to-even on rationals, the rounding Python `round` uses.
For a tie (fractional part exactly one half) the even neighbour is chosen;
otherwise it agrees with rounding to the nearest integer. -/
def pythonRound (q : ℚ) : ℤ :=
  if q - ⌊q⌋ = 1 / 2 then (if ⌊q⌋ % 2 = 0 then ⌊q⌋ else ⌊q⌋ + 1) else round q

/-- Python `round(x, 1)`: round to one decimal place (ties to even). -/
def roundTenth (q : ℚ) : ℚ :=
  (pythonRound (10 * q) : ℚ) / 10

/-- Embedding of `get_fixture_stats_last_15min` (bot_telegram_goal_alert.py,
lines 61-92), from the point where the per-team statistic rows have been
summed into cumulative totals `shots`, `sot`, `corners` (the JSON parsing
loop is data plumbing).  Returns the damped "last 10 minutes" counts and the
pressure index `pi = min(100, shots*2 + sot*6 + corners*3)` rounded to one
decimal.  Red cards are not read at all. -/
def get_fixture_stats_last_15min (shots sot corners : ℕ) : ℕ × ℕ × ℕ × ℚ :=
  let pi : ℚ := min 100 (shots * 2 + sot * 6 + corners * 3)
  let last10_shots : ℕ := (max 0 (pythonRound ((shots : ℚ) * (25 / 100)))).toNat
  let last10_sot : ℕ := (max 0 (pythonRound ((sot : ℚ) * (35 / 100)))).toNat
  let last10_corners : ℕ := (max 0 (pythonRound ((corners : ℚ) * (35 / 100)))).toNat
  (last10_shots, last10_sot, last10_corners, roundTenth pi)

/-- The pressure index component of `get_fixture_stats_last_15min`. -/
def pressureIndex (shots sot corners : ℕ) : ℚ :=
  (get_fixture_stats_last_15min shots sot corners).2.2.2

/-- Modelled from the spec words, for comparison with the source formula:
"weighted sum 1.0*shots + 2.2*shots_on_target + 1.2*corners, plus a flat +10
if any red card occurred in-window, clamped to the range [0, 25]". -/
def pressureIndexSpec (shots sot corners : ℕ) (redCard : Bool) : ℚ :=
  min 25 (max 0 (1 * shots + (22 / 10) * sot + (12 / 10) * corners +
    (if redCard then 10 else 0)))

/-- The `load` local of `predict_prob` (bot_telegram_goal_alert.py, lines
101-106): the weighted stat sum `0.02*shots + 0.05*sot + 0.015*corners +
(pi/100)*0.25`, plus `0.08` from minute 80 on and `0.04` when three or more
goals have been scored. -/
noncomputable def pp_load (shots sot corners pi : ℝ) (minute : ℕ)
    (score : ℕ × ℕ) : ℝ :=
  let load0 : ℝ := 2 / 100 * shots + 5 / 100 * sot + 15 / 1000 * corners +
    pi / 100 * (25 / 100)
  let load1 : ℝ := if 80 ≤ minute then load0 + 8 / 100 else load0
  if 3 ≤ score.1 + score.2 then load1 + 4 / 100 else load1

/-- The `p_per_min` local of `predict_prob` (line 108): the per-minute
probability `base + load` with `base = 0.28`, compressed into
`[0.01, 0.9]`. -/
noncomputable def pp_per_min (shots sot corners pi : ℝ) (minute : ℕ)
    (score : ℕ × ℕ) : ℝ :=
  max (1 / 100) (min (9 / 10) (28 / 100 + pp_load shots sot corners pi minute score))

/-- Embedding of `predict_prob` (bot_telegram_goal_alert.py, lines 94-110)
over the reals; the Python float expression `(1 - p) ** (next_min / 2.0)`
becomes a real power and the final `max(0.0, min(1.0, p_window))` clamp is
kept.  All numeric literals of the source are exact rationals. -/
noncomputable def predict_prob (next_min shots sot corners pi : ℝ)
    (minute : ℕ) (score : ℕ × ℕ) : ℝ :=
  max 0 (min 1
    (1 - (1 - pp_per_min shots sot corners pi minute score) ^ (next_min / 2)))

/-- Rational specialization of `predict_prob` used to execute the polling
loop on concrete inputs: the exponent `next_min / 2.0` is taken as the
natural number `next_min / 2`, which is exact whenever `next_min` is even
(the lookahead default is 12). -/
def predict_probQ (next_min : ℕ) (shots sot corners : ℕ) (pi : ℚ)
    (minute : ℕ) (score : ℕ × ℕ) : ℚ :=
  let base : ℚ := 28 / 100
  let load0 : ℚ := 2 / 100 * shots + 5 / 100 * sot + 15 / 1000 * corners +
    pi / 100 * (25 / 100)
  let load1 : ℚ := if 80 ≤ minute then load0 + 8 / 100 else load0
  let load2 : ℚ := if 3 ≤ score.1 + score.2 then load1 + 4 / 100 else load1
  let p_per_min : ℚ := max (1 / 100) (min (9 / 10) (base + load2))
  let p_window : ℚ := 1 - (1 - p_per_min) ^ (next_min / 2)
  max 0 (min 1 p_window)

/-- Embedding of `half_and_minute` (lines 112-124): map total elapsed
minutes to a half flag (`true` = first half) and a minute-in-half. -/
def half_and_minute (elapsed : ℕ) : Bool × ℕ :=
  if elapsed ≤ 45 then (true, elapsed)
  else if elapsed ≤ 90 then (false, elapsed - 45)
  else (false, min 90 elapsed - 45)

/-- Embedding of `suggest_market` (lines 126-143). -/
def suggest_market (score_home score_away : ℕ) (firstHalf : Bool) : String :=
  let total := score_home + score_away
  if firstHalf then
    if total = 0 then "Over 0.5 goals (1H)" else "Over 1.5 goals (FT)"
  else
    if total = 0 then "Over 0.5 goals (FT)"
    else if total = 1 then "Over 1.5 goals (FT)"
    else if total = 2 then "Over 2.5 goals (FT)"
    else "Next Goal in 2H"

end GoalAlert

namespace Acca

/-- One candidate selection of `bot_telegram_acca.py`.  The source dict
carries league, match, market and pick strings plus the odds; only the odds
enter the selection arithmetic, so the descriptive fields are condensed into
a distinguishing identifier. -/
structure Pick where
  pid : ℕ
  odds : ℚ
deriving DecidableEq, Repr

/-- The running odds product of a slip: `prod = 1.0; for p in picks: prod *=
p["odds"]` (bot_telegram_acca.py, lines 81-82 and 92-94). -/
def oddsProduct (ps : List Pick) : ℚ :=
  ps.foldl (fun a p => a * p.odds) 1

/-- One iteration of the `build_acca` retry loop (lines 78-85): attempt `i`
draws the sample `sampler i`, and replaces the best candidate if its gap
`|prod - target_return|` is strictly smaller than the best gap so far. -/
def accaStep (sampler : ℕ → List Pick) (target : ℚ)
    (acc : Option (List Pick) × ℚ) (i : ℕ) : Option (List Pick) × ℚ :=
  let picks := sampler i
  let gap := |oddsProduct picks - target|
  if gap < acc.2 then (some picks, gap) else acc

/-- The state of the `build_acca` loop after the first `n` of the 500
attempts, starting from `best, best_gap = None, 1e9`. -/
def accaFold (sampler : ℕ → List Pick) (target : ℚ) (n : ℕ) :
    Option (List Pick) × ℚ :=
  (List.range n).foldl (accaStep sampler target) (none, 10 ^ 9)

/-- Embedding of `build_acca` (bot_telegram_acca.py, lines 71-86).  The call
`random.sample(candidates, k=min(legs, len(candidates)))` of attempt `i` is
modelled by the oracle `sampler i`; theorems constrain the oracle with the
properties `random.sample` guarantees (each sample has exactly
`min legs candidates.length` elements drawn from the pool).  The final
`return best or candidates[:legs]` falls back to the pool prefix when `best`
is `None` or the empty list (Python falsiness). -/
def build_acca (sampler : ℕ → List Pick) (candidates : List Pick)
    (legs : ℕ) (target_return : ℚ) : List Pick :=
  match accaFold sampler target_return 500 with
  | (some best, _) => if best = [] then candidates.take legs else best
  | (none, _) => candidates.take legs

end Acca

namespace GoalAlert

/-- Configuration values read from the environment at startup
(bot_telegram_goal_alert.py, lines 26-37): probability threshold, lookahead
minutes, per-fixture cooldown seconds, post-expiry grace seconds, and the
inclusive per-half alert minute windows. -/
structure Config where
  threshold : ℚ
  lookaheadMin : ℕ
  cooldownSecs : ℕ
  graceSecs : ℕ
  w1s : ℕ
  w1e : ℕ
  w2s : ℕ
  w2e : ℕ
deriving DecidableEq, Repr

/-- Embedding of `within_windows` (lines 156-159). -/
def within_windows (cfg : Config) (firstHalf : Bool) (m : ℕ) : Bool :=
  if firstHalf then decide (cfg.w1s ≤ m ∧ m ≤ cfg.w1e)
  else decide (cfg.w2s ≤ m ∧ m ≤ cfg.w2e)

/-- One entry of the `pending` dict (line 320): the alert expiry instant
`emission + LOOKAHEAD_MIN minutes` in unix seconds, the emitted probability
and pressure index, the damped stat triple and the suggested market.  The
Telegram `message_id` handle is not modelled; message edits are recorded as
events keyed by fixture id instead. -/
structure PendingInfo where
  expireAt : ℕ
  prob : ℚ
  pi : ℚ
  last10 : ℕ × ℕ × ℕ
  suggestion : String
deriving DecidableEq, Repr

/-- The module-level mutable state of the bot (lines 145-148): three dicts
keyed by fixture id, modelled as association lists with dict semantics
(insert overwrites the existing binding for a key). -/
structure BotState where
  lastAlertTs : List (ℕ × ℕ)
  pending : List (ℕ × PendingInfo)
  recentOutcomes : List (ℕ × (ℕ × ℕ))
deriving DecidableEq, Repr

/-- Dict assignment `d[k] = v`: any existing binding of `k` is replaced. -/
def dictInsert {α : Type} (d : List (ℕ × α)) (k : ℕ) (v : α) : List (ℕ × α) :=
  (k, v) :: d.filter (fun kv => kv.1 != k)

/-- Dict removal `d.pop(k, None)`: a no-op when `k` is absent. -/
def dictErase {α : Type} (d : List (ℕ × α)) (k : ℕ) : List (ℕ × α) :=
  d.filter (fun kv => kv.1 != k)

/-- One live fixture as consumed by the polling loop (lines 236-248):
fixture id, total elapsed minutes, and the current score. -/
structure Fixture where
  fid : ℕ
  elapsed : ℕ
  hg : ℕ
  ag : ℕ
deriving DecidableEq, Repr

/-- Outgoing Telegram traffic of one cycle, recorded per fixture id: a new
Pending alert message, the edit of an alert to Success (plus the optional
success ping), or the edit of an alert to Failed. -/
inductive Event where
  | alertSent (fid : ℕ)
  | successEdit (fid : ℕ)
  | successPing (fid : ℕ)
  | failedEdit (fid : ℕ)
deriving DecidableEq, Repr

/-- The type of the probability oracle: `predict_prob` abstracted so that
the state machine stays executable (arguments: lookahead, shots, shots on
target, corners, pressure index, minute in half, score). `predict_probQ` is
the concrete instance used in evaluations. -/
abbrev Predictor := ℕ → ℕ → ℕ → ℕ → ℚ → ℕ → ℕ × ℕ → ℚ

/-- Embedding of the score-change resolution at the top of the per-fixture
body of `polling_loop` (lines 249 and 254-278): `recent_outcomes.setdefault`
stores a baseline score on first sight; when the current score differs from
the tracked one, the pending alert of the fixture (if any) is edited to
Success — but only when `now` has not passed its stored expiry — and removed
in any case, and the tracked score is updated.  Within one cycle all clock
reads are modelled by the single instant `now` (unix seconds). -/
def resolveScoreChange (now : ℕ) (st : BotState) (f : Fixture) :
    BotState × List Event :=
  let ro0 := if (st.recentOutcomes.lookup f.fid).isSome then st.recentOutcomes
    else dictInsert st.recentOutcomes f.fid (f.hg, f.ag)
  let prev := (ro0.lookup f.fid).getD (f.hg, f.ag)
  if (f.hg, f.ag) ≠ prev then
    let ev :=
      match st.pending.lookup f.fid with
      | some info =>
        if now ≤ info.expireAt then [Event.successEdit f.fid, Event.successPing f.fid]
        else []
      | none => []
    (⟨st.lastAlertTs, dictErase st.pending f.fid, dictInsert ro0 f.fid (f.hg, f.ag)⟩, ev)
  else (⟨st.lastAlertTs, st.pending, ro0⟩, [])

/-- Embedding of the rest of the per-fixture body of `polling_loop` (lines
236-330), after `resolveScoreChange`.  `fetchStats` is the statistics-fetch
oracle; an `Except.error` models the `requests` exception raised by
`af_get`, which propagates out of the fixture loop (third component `true` =
the cycle aborts here).  In order: the window check, inside which an
out-of-window pending alert past expiry-plus-grace is edited to Failed and
removed; the per-fixture cooldown check; the statistics fetch; and alert
emission when the predicted probability reaches the threshold, overwriting
`pending[fid]` and stamping `last_alert_ts[fid]`. -/
def processFixture (cfg : Config) (fetchStats : ℕ → Except Unit (ℕ × ℕ × ℕ × ℚ))
    (pp : Predictor) (now : ℕ) (st : BotState) (f : Fixture) :
    BotState × List Event × Bool :=
  let r1 := resolveScoreChange now st f
  let st1 := r1.1
  let ev1 := r1.2
  let hm := half_and_minute f.elapsed
  if within_windows cfg hm.1 hm.2 = false then
    match st1.pending.lookup f.fid with
    | some info =>
      if info.expireAt + cfg.graceSecs < now then
        (⟨st1.lastAlertTs, dictErase st1.pending f.fid, st1.recentOutcomes⟩,
         ev1 ++ [Event.failedEdit f.fid], false)
      else (st1, ev1, false)
    | none => (st1, ev1, false)
  else if now - ((st1.lastAlertTs.lookup f.fid).getD 0) < cfg.cooldownSecs then
    (st1, ev1, false)
  else
    match fetchStats f.fid with
    | Except.error _ => (st1, ev1, true)
    | Except.ok (s, so, c, pi) =>
      let prob := pp cfg.lookaheadMin s so c pi hm.2 (f.hg, f.ag)
      if cfg.threshold ≤ prob then
        (⟨dictInsert st1.lastAlertTs f.fid now,
          dictInsert st1.pending f.fid
            ⟨now + cfg.lookaheadMin * 60, prob, pi, (s, so, c),
             suggest_market f.hg f.ag hm.1⟩,
          st1.recentOutcomes⟩,
         ev1 ++ [Event.alertSent f.fid], false)
      else (st1, ev1, false)

/-- Sequential evaluation of the live fixtures of one cycle (the `for f in
fixtures` loop).  A fetch failure raises through the loop, so processing
stops at the failing fixture with the state mutations made so far kept
(Python mutates the dicts in place); the third component reports whether the
cycle aborted. -/
def runFixtures (cfg : Config) (fetchStats : ℕ → Except Unit (ℕ × ℕ × ℕ × ℚ))
    (pp : Predictor) (now : ℕ) :
    List Fixture → BotState → BotState × List Event × Bool
  | [], st => (st, [], false)
  | f :: fs, st =>
    let r := processFixture cfg fetchStats pp now st f
    if r.2.2 then (r.1, r.2.1, true)
    else
      let rest := runFixtures cfg fetchStats pp now fs r.1
      (rest.1, r.2.1 ++ rest.2.1, rest.2.2)

/-- Embedding of the end-of-cycle sweep (lines 332-345): every pending alert
whose expiry-plus-grace instant lies strictly before `now` is edited to
Failed and removed, irrespective of whether its fixture is still live. -/
def sweep (cfg : Config) (now : ℕ) (st : BotState) : BotState × List Event :=
  (⟨st.lastAlertTs,
    st.pending.filter (fun kv => !decide (kv.2.expireAt + cfg.graceSecs < now)),
    st.recentOutcomes⟩,
   (st.pending.filter (fun kv => decide (kv.2.expireAt + cfg.graceSecs < now))).map
     (fun kv => Event.failedEdit kv.1))

/-- One whole poll cycle (the body of the `while True` loop, lines 226-348):
evaluate all live fixtures, then run the expiry sweep — unless an exception
aborted the fixture loop, in which case the `except` clause at the cycle
level catches it and the sweep of this cycle is skipped. -/
def runCycle (cfg : Config) (fetchStats : ℕ → Except Unit (ℕ × ℕ × ℕ × ℚ))
    (pp : Predictor) (now : ℕ) (fixtures : List Fixture) (st : BotState) :
    BotState × List Event :=
  let r := runFixtures cfg fetchStats pp now fixtures st
  if r.2.2 then (r.1, r.2.1)
  else
    let sw := sweep cfg now r.1
    (sw.1, r.2.1 ++ sw.2)

end GoalAlert

namespace GoalAlert

/-- The default configuration from the environment defaults (lines 26-37):
threshold 0.60, lookahead 12 minutes, cooldown 240 s, grace 30 s, windows
18-25 and 65-72. -/
def exCfg : Config := ⟨6 / 10, 12, 240, 30, 18, 25, 65, 72⟩

/-- A pending alert emitted at unix time 280 with expiry 280 + 12*60 = 1000. -/
def exInfo : PendingInfo := ⟨1000, 7 / 10, 50, (1, 1, 1), "Over 0.5 goals (1H)"⟩

/-- A bot state tracking fixture 1: last alert stamped at 300, the alert of
`exInfo` still pending, last known score 0-0. -/
def exState : BotState := ⟨[(1, 300)], [(1, exInfo)], [(1, (0, 0))]⟩

/-- The empty bot state at process start. -/
def exEmpty : BotState := ⟨[], [], []⟩

/-- A statistics oracle that always succeeds with busy stats. -/
def exFetch : ℕ → Except Unit (ℕ × ℕ × ℕ × ℚ) := fun _ => Except.ok (5, 5, 5, 80)

/-- A statistics oracle whose fetch for fixture 1 raises. -/
def exFetchFail : ℕ → Except Unit (ℕ × ℕ × ℕ × ℚ) := fun n =>
  if n = 1 then Except.error () else Except.ok (5, 5, 5, 80)

/-- Fixture 1 at minute 20 (inside the first-half window), score 0-0. -/
def exFix : Fixture := ⟨1, 20, 0, 0⟩

/-- Fixture 1 at minute 20 right after a goal: score 1-0. -/
def exFixGoal : Fixture := ⟨1, 20, 1, 0⟩

/-- A second live fixture, id 2, also at minute 20 and 0-0. -/
def exFix2 : Fixture := ⟨2, 20, 0, 0⟩

end GoalAlert

namespace Acca

/-- A candidate with odds 2.5. -/
def exPickA : Pick := ⟨0, 5 / 2⟩

/-- A candidate with odds 3. -/
def exPickB : Pick := ⟨1, 3⟩

/-- A two-candidate pool. -/
def exPool : List Pick := [exPickA, exPickB]

/-- A sampling oracle whose first attempt draws the 2.5 candidate and every
later attempt the odds-3 candidate. -/
def exSampler : ℕ → List Pick := fun i => if i = 0 then [exPickA] else [exPickB]

/-- A pool of five candidates. -/
def exPool5 : List Pick := [⟨0, 3 / 2⟩, ⟨1, 2⟩, ⟨2, 7 / 4⟩, ⟨3, 3 / 2⟩, ⟨4, 2⟩]

/-- The sampling oracle for a 10-leg request over `exPool5`: every attempt
draws `min 10 5 = 5` candidates, as `random.sample` does with
`k=min(legs, len(candidates))`. -/
def exSampler5 : ℕ → List Pick := fun _ => exPool5.take (min 10 exPool5.length)

end Acca

namespace GoalAlert

/-- `pythonRound` is the identity on integers. -/
lemma pythonRound_intCast (n : ℤ) : pythonRound (n : ℚ) = n := by
  unfold pythonRound
  rw [Int.floor_intCast, round_intCast]
  simp

/-- `roundTenth` is the identity on integers. -/
lemma roundTenth_intCast (n : ℤ) : roundTenth (n : ℚ) = n := by
  unfold roundTenth
  have h : (10 : ℚ) * n = ((10 * n : ℤ) : ℚ) := by push_cast; ring
  rw [h, pythonRound_intCast]
  push_cast
  ring

/-- C1 (counterexample). The claim: the pressure index equals
`1.0*shots + 2.2*sot + 1.2*corners` plus a flat `+10` on a red card, clamped
to `[0, 25]`.  Already at one shot and nothing else the source value is 2
(weight 2.0 per shot, clamp at 100) while the claimed formula gives 1; red
cards are not read by the source at all. -/
theorem c1_pressure_index_cex :
    pressureIndex 1 0 0 ≠ pressureIndexSpec 1 0 0 false := by
  norm_num [pressureIndex, get_fixture_stats_last_15min, pressureIndexSpec,
    roundTenth, pythonRound, min_def, max_def, round_eq]

/-- C1 (amended). The pressure index of `get_fixture_stats_last_15min`
equals `2*shots + 6*sot + 3*corners` wherever that sum is at most 100, and
equals 100 (the actual clamp ceiling) wherever the sum reaches 100; no
red-card term exists.  The final `round(pi, 1)` is the identity on these
integer values. -/
theorem c1_pressure_index_formula (s so c : ℕ) :
    (s * 2 + so * 6 + c * 3 ≤ 100 →
      pressureIndex s so c = ((s * 2 + so * 6 + c * 3 : ℕ) : ℚ)) ∧
    (100 ≤ s * 2 + so * 6 + c * 3 → pressureIndex s so c = 100) := by
  unfold pressureIndex get_fixture_stats_last_15min
  dsimp only
  constructor
  · intro h
    have hle : ((s : ℚ) * 2 + so * 6 + c * 3) ≤ 100 := by exact_mod_cast h
    rw [min_eq_right hle]
    have hcast : ((s : ℚ) * 2 + so * 6 + c * 3) = ((s * 2 + so * 6 + c * 3 : ℕ) : ℤ) := by
      push_cast; ring
    rw [hcast, roundTenth_intCast]
    push_cast; ring
  · intro h
    have hle : (100 : ℚ) ≤ (s : ℚ) * 2 + so * 6 + c * 3 := by exact_mod_cast h
    rw [min_eq_left hle]
    have hcast : (100 : ℚ) = ((100 : ℤ) : ℚ) := by norm_num
    rw [hcast, roundTenth_intCast]

/-- C1 (witness). One shot, two on target, three corners: weighted sum
2 + 12 + 9 = 23 and the pressure index is exactly 23. -/
theorem c1_pressure_index_formula_witness :
    1 * 2 + 2 * 6 + 3 * 3 ≤ 100 ∧
    pressureIndex 1 2 3 = ((1 * 2 + 2 * 6 + 3 * 3 : ℕ) : ℚ) :=
  ⟨by norm_num, (c1_pressure_index_formula 1 2 3).1 (by norm_num)⟩

/-- C7. The goal probability returned by `predict_prob` lies in `[0, 1]` for
every combination of lookahead, statistics, pressure index, minute and
score: the function ends in the clamp `max(0.0, min(1.0, p_window))`. -/
theorem c7_probability_in_unit_interval (next_min shots sot corners pi : ℝ)
    (minute : ℕ) (score : ℕ × ℕ) :
    0 ≤ predict_prob next_min shots sot corners pi minute score ∧
    predict_prob next_min shots sot corners pi minute score ≤ 1 := by
  unfold predict_prob
  exact ⟨le_max_left _ _, max_le zero_le_one (min_le_left _ _)⟩

/-- The `load` term of `predict_prob` is monotone in shots, shots on target,
corners and pressure index (all weights are positive and the two game-state
bonuses depend only on minute and score). -/
lemma pp_load_mono (s so c pi s' so' c' pi' : ℝ) (m : ℕ) (sc : ℕ × ℕ)
    (hs : s ≤ s') (hso : so ≤ so') (hc : c ≤ c') (hpi : pi ≤ pi') :
    pp_load s so c pi m sc ≤ pp_load s' so' c' pi' m sc := by
  unfold pp_load
  dsimp only
  split_ifs <;> linarith

/-- Monotonicity of the compressed per-minute probability. -/
lemma pp_per_min_mono (s so c pi s' so' c' pi' : ℝ) (m : ℕ) (sc : ℕ × ℕ)
    (hs : s ≤ s') (hso : so ≤ so') (hc : c ≤ c') (hpi : pi ≤ pi') :
    pp_per_min s so c pi m sc ≤ pp_per_min s' so' c' pi' m sc :=
  max_le_max le_rfl (min_le_min le_rfl
    (add_le_add_left (pp_load_mono s so c pi s' so' c' pi' m sc hs hso hc hpi) _))

/-- The per-minute probability never falls below its compression floor. -/
lemma pp_per_min_ge (s so c pi : ℝ) (m : ℕ) (sc : ℕ × ℕ) :
    1 / 100 ≤ pp_per_min s so c pi m sc :=
  le_max_left _ _

/-- The per-minute probability never exceeds its compression ceiling. -/
lemma pp_per_min_le (s so c pi : ℝ) (m : ℕ) (sc : ℕ × ℕ) :
    pp_per_min s so c pi m sc ≤ 9 / 10 :=
  max_le (by norm_num) (min_le_left _ _)

/-- C10. For a fixed lookahead, minute and score, `predict_prob` is monotone
non-decreasing jointly (hence in each argument separately) in shots, shots
on target, corners and pressure index.  For non-negative exponents the
window complement `(1-p)^(next_min/2)` shrinks as `p` grows on `[0.01,
0.9]`; for a negative lookahead the clamp pins both sides to 0. -/
theorem c10_predict_prob_monotone (next_min s so c pi s' so' c' pi' : ℝ)
    (m : ℕ) (sc : ℕ × ℕ)
    (hs : s ≤ s') (hso : so ≤ so') (hc : c ≤ c') (hpi : pi ≤ pi') :
    predict_prob next_min s so c pi m sc ≤ predict_prob next_min s' so' c' pi' m sc := by
  unfold predict_prob
  have hp : pp_per_min s so c pi m sc ≤ pp_per_min s' so' c' pi' m sc :=
    pp_per_min_mono s so c pi s' so' c' pi' m sc hs hso hc hpi
  have hub : pp_per_min s' so' c' pi' m sc ≤ 9 / 10 := pp_per_min_le s' so' c' pi' m sc
  have hub2 : pp_per_min s so c pi m sc ≤ 9 / 10 := pp_per_min_le s so c pi m sc
  have hlb : 1 / 100 ≤ pp_per_min s so c pi m sc := pp_per_min_ge s so c pi m sc
  have hlb2 : 1 / 100 ≤ pp_per_min s' so' c' pi' m sc := pp_per_min_ge s' so' c' pi' m sc
  rcases le_or_lt 0 (next_min / 2) with he | he
  · have h1 : (1 - pp_per_min s' so' c' pi' m sc) ^ (next_min / 2) ≤
        (1 - pp_per_min s so c pi m sc) ^ (next_min / 2) :=
      Real.rpow_le_rpow (by linarith) (by linarith) he
    exact max_le_max le_rfl (min_le_min le_rfl (by linarith))
  · have hz : ∀ q : ℝ, 1 / 100 ≤ q → q ≤ 9 / 10 →
        max 0 (min 1 (1 - (1 - q) ^ (next_min / 2))) = (0 : ℝ) := by
      intro q h1 h2
      have hpow : (1 : ℝ) ≤ (1 - q) ^ (next_min / 2) :=
        Real.one_le_rpow_of_pos_of_le_one_of_nonpos (by linarith) (by linarith)
          (le_of_lt he)
      have hmin : min 1 (1 - (1 - q) ^ (next_min / 2)) ≤ 0 :=
        le_trans (min_le_right _ _) (by linarith)
      exact max_eq_left hmin
    rw [hz _ hlb hub2, hz _ hlb2 hub]

/-- C10 (witness). Increasing shots from 1 to 2 and shots on target from 3
to 4 at minute 30 never decreases the probability. -/
theorem c10_predict_prob_monotone_witness :
    (1 : ℝ) ≤ 2 ∧ (3 : ℝ) ≤ 4 ∧ (0 : ℝ) ≤ 0 ∧ (50 : ℝ) ≤ 50 ∧
    predict_prob 12 1 3 0 50 30 (0, 0) ≤ predict_prob 12 2 4 0 50 30 (0, 0) :=
  ⟨one_le_two, by norm_num, le_rfl, le_rfl,
    c10_predict_prob_monotone 12 1 3 0 50 2 4 0 50 30 (0, 0)
      one_le_two (by norm_num) le_rfl le_rfl⟩

/-- The rational loop predictor agrees with the real `predict_prob` whenever
the lookahead is even (in particular for the default 12), so concrete
evaluations of the polling loop below use the exact source probability. -/
lemma predict_probQ_eq (s so c : ℕ) (pi : ℚ) (m : ℕ) (sc : ℕ × ℕ) (k : ℕ) :
    ((predict_probQ (2 * k) s so c pi m sc : ℚ) : ℝ) =
      predict_prob ((2 * k : ℕ) : ℝ) (s : ℝ) (so : ℝ) (c : ℝ) ((pi : ℚ) : ℝ) m sc := by
  unfold predict_probQ predict_prob pp_per_min pp_load
  dsimp only
  have hnd : (2 * k) / 2 = k := by omega
  have hexp : ((2 * k : ℕ) : ℝ) / 2 = ((k : ℕ) : ℝ) := by push_cast; ring
  rw [hnd, hexp, Real.rpow_natCast]
  split_ifs <;> push_cast [Rat.cast_min, Rat.cast_max] <;> ring

end GoalAlert

namespace Acca

/-- Unrolling one attempt of the `build_acca` loop. -/
lemma accaFold_succ (sampler : ℕ → List Pick) (t : ℚ) (n : ℕ) :
    accaFold sampler t (n + 1) = accaStep sampler t (accaFold sampler t n) n := by
  unfold accaFold
  rw [List.range_succ, List.foldl_append]
  rfl

/-- Loop invariant of `build_acca`: after `n` attempts, either no attempt
beat the initial gap `1e9` and the accumulator is untouched, or the
accumulator holds an earliest attempt whose gap is minimal among the first
`n` attempts. -/
lemma accaFold_spec (sampler : ℕ → List Pick) (t : ℚ) : ∀ n : ℕ,
    (accaFold sampler t n = (none, 10 ^ 9) ∧
      ∀ i, i < n → 10 ^ 9 ≤ |oddsProduct (sampler i) - t|) ∨
    (∃ j, j < n ∧
      accaFold sampler t n = (some (sampler j), |oddsProduct (sampler j) - t|) ∧
      ∀ i, i < n → |oddsProduct (sampler j) - t| ≤ |oddsProduct (sampler i) - t|) := by
  intro n
  induction n with
  | zero =>
    left
    exact ⟨rfl, fun i hi => absurd hi (Nat.not_lt_zero i)⟩
  | succ n ih =>
    rw [accaFold_succ]
    rcases ih with ⟨hval, hbig⟩ | ⟨j, hj, hval, hmin⟩
    · rw [hval]
      unfold accaStep
      dsimp only
      split_ifs with hg
      · right
        refine ⟨n, Nat.lt_succ_self n, rfl, ?_⟩
        intro i hi
        rcases Nat.lt_succ_iff_lt_or_eq.1 hi with hi' | hi'
        · exact le_trans (le_of_lt hg) (hbig i hi')
        · subst hi'; exact le_refl _
      · left
        refine ⟨rfl, ?_⟩
        intro i hi
        rcases Nat.lt_succ_iff_lt_or_eq.1 hi with hi' | hi'
        · exact hbig i hi'
        · subst hi'; exact not_lt.1 hg
    · rw [hval]
      unfold accaStep
      dsimp only
      split_ifs with hg
      · right
        refine ⟨n, Nat.lt_succ_self n, rfl, ?_⟩
        intro i hi
        rcases Nat.lt_succ_iff_lt_or_eq.1 hi with hi' | hi'
        · exact le_trans (le_of_lt hg) (hmin i hi')
        · subst hi'; exact le_refl _
      · right
        refine ⟨j, Nat.lt_succ_of_lt hj, rfl, ?_⟩
        intro i hi
        rcases Nat.lt_succ_iff_lt_or_eq.1 hi with hi' | hi'
        · exact hmin i hi'
        · subst hi'; exact not_lt.1 hg

/-- C5 (counterexample). The claim: the selector returns the first sample
whose odds product lands within the target range.  With the oracle whose
attempt 0 has product 2.5 — inside any sensible range such as `[2, 4]`
around the target 3 — `build_acca` still returns a later attempt (one with
product exactly 3), because the source has no range test and no early exit:
it always finishes its 500 attempts and keeps the sample closest to the
scalar `target_return`. -/
theorem c5_first_in_range_cex :
    (2 ≤ oddsProduct (exSampler 0) ∧ oddsProduct (exSampler 0) ≤ 4) ∧
    build_acca exSampler exPool 1 3 ≠ exSampler 0 := by
  have hprod0 : oddsProduct (exSampler 0) = 5 / 2 := by
    norm_num [exSampler, exPickA, oddsProduct]
  have hprod1 : oddsProduct (exSampler 1) = 3 := by
    norm_num [exSampler, exPickB, oddsProduct]
  refine ⟨⟨by rw [hprod0]; norm_num, by rw [hprod0]; norm_num⟩, ?_⟩
  rcases accaFold_spec exSampler 3 500 with ⟨_, hbig⟩ | ⟨j, hj, hval, hmin⟩
  · exfalso
    have h0 := hbig 0 (by norm_num)
    rw [hprod0] at h0
    rw [show |(5 : ℚ) / 2 - 3| = 1 / 2 by rw [abs_of_nonpos (by norm_num)]; norm_num] at h0
    norm_num at h0
  · have h1 := hmin 1 (by norm_num)
    rw [hprod1] at h1
    simp only [sub_self, abs_zero] at h1
    have hj0 : |oddsProduct (exSampler j) - 3| = 0 :=
      le_antisymm h1 (abs_nonneg _)
    have hjprod : oddsProduct (exSampler j) = 3 := by
      have := abs_eq_zero.1 hj0
      linarith [this]
    have hjne : exSampler j ≠ [] := by
      unfold exSampler
      split_ifs <;> simp [exPickA, exPickB]
    unfold build_acca
    rw [hval]
    dsimp only
    rw [if_neg hjne]
    intro hEq
    rw [hEq, hprod0] at hjprod
    norm_num at hjprod

/-- C5 (amended). `build_acca` takes a single scalar `target_return`, not a
range: it always runs its full budget of 500 sampling attempts with no
early exit, and returns a sample whose odds-product distance to the target
is minimal over all 500 attempts (provided the first attempt beats the
initial sentinel gap `1e9` and samples are non-empty, so the `best or
candidates[:legs]` fallback is not taken). -/
theorem c5_closest_of_full_budget (sampler : ℕ → List Pick)
    (candidates : List Pick) (legs : ℕ) (t : ℚ)
    (h0 : |oddsProduct (sampler 0) - t| < 10 ^ 9)
    (hne : ∀ i, i < 500 → sampler i ≠ []) :
    ∃ j, j < 500 ∧ build_acca sampler candidates legs t = sampler j ∧
      ∀ i, i < 500 → |oddsProduct (sampler j) - t| ≤ |oddsProduct (sampler i) - t| := by
  rcases accaFold_spec sampler t 500 with ⟨_, hbig⟩ | ⟨j, hj, hval, hmin⟩
  · exact absurd (hbig 0 (by norm_num)) (not_le.2 h0)
  · refine ⟨j, hj, ?_, hmin⟩
    unfold build_acca
    rw [hval]
    exact if_neg (hne j hj)

/-- C5 (witness). With the two-candidate oracle aiming at target 3, the
returned slip is an attempt of minimal gap among all 500. -/
theorem c5_closest_of_full_budget_witness :
    |oddsProduct (exSampler 0) - 3| < 10 ^ 9 ∧
    (∀ i, i < 500 → exSampler i ≠ []) ∧
    ∃ j, j < 500 ∧ build_acca exSampler exPool 1 3 = exSampler j ∧
      ∀ i, i < 500 → |oddsProduct (exSampler j) - 3| ≤ |oddsProduct (exSampler i) - 3| :=
  ⟨by
    rw [show oddsProduct (exSampler 0) = 5 / 2 by norm_num [exSampler, exPickA, oddsProduct]]
    rw [show |(5 : ℚ) / 2 - 3| = 1 / 2 by rw [abs_of_nonpos (by norm_num)]; norm_num]
    norm_num,
   fun i _ => by unfold exSampler; split_ifs <;> simp [exPickA, exPickB],
   c5_closest_of_full_budget exSampler exPool 1 3
     (by
       rw [show oddsProduct (exSampler 0) = 5 / 2 by norm_num [exSampler, exPickA, oddsProduct]]
       rw [show |(5 : ℚ) / 2 - 3| = 1 / 2 by rw [abs_of_nonpos (by norm_num)]; norm_num]
       norm_num)
     (fun i _ => by unfold exSampler; split_ifs <;> simp [exPickA, exPickB])⟩

/-- C9. When every sample has the size `random.sample` is called with —
`min(legs, len(candidates))` — the slip `build_acca` returns never exceeds
the pool size, whatever the requested leg count; in particular a pool of 5
asked for 10 legs yields at most 5 picks, and no exception is possible
(`k=min(...)` keeps `random.sample` within its domain, and the embedding is
a total function). -/
theorem c9_small_pool_degrades (sampler : ℕ → List Pick)
    (candidates : List Pick) (legs : ℕ) (t : ℚ)
    (hlen : ∀ i, i < 500 → (sampler i).length = min legs candidates.length) :
    (build_acca sampler candidates legs t).length ≤ candidates.length := by
  unfold build_acca
  rcases accaFold_spec sampler t 500 with ⟨hval, _⟩ | ⟨j, hj, hval, _⟩ <;> rw [hval]
  · rw [List.length_take]
    exact min_le_right _ _
  · dsimp only
    split_ifs
    · rw [List.length_take]
      exact min_le_right _ _
    · rw [hlen j hj]
      exact min_le_right _ _

/-- C9 (witness). A pool of 5 candidates asked for 10 legs returns at most
5 picks. -/
theorem c9_small_pool_degrades_witness :
    (∀ i, i < 500 → (exSampler5 i).length = min 10 exPool5.length) ∧
    (build_acca exSampler5 exPool5 10 30).length ≤ exPool5.length :=
  ⟨fun _ _ => rfl, c9_small_pool_degrades exSampler5 exPool5 10 30 (fun _ _ => rfl)⟩

end Acca

namespace GoalAlert

/-- The score-change resolution never touches `last_alert_ts`. -/
lemma resolveScoreChange_lastAlertTs (now : ℕ) (st : BotState) (f : Fixture) :
    (resolveScoreChange now st f).1.lastAlertTs = st.lastAlertTs := by
  unfold resolveScoreChange
  dsimp only
  split <;> split <;> rfl

/-- Removing a key keeps the association-list keys duplicate-free. -/
lemma dictErase_keys_sub {α : Type} (d : List (ℕ × α)) (k : ℕ)
    (h : (d.map Prod.fst).Nodup) : ((dictErase d k).map Prod.fst).Nodup :=
  h.sublist ((List.filter_sublist d).map Prod.fst)

/-- Dict assignment keeps the association-list keys duplicate-free: the
fresh binding replaces every old binding of its key. -/
lemma dictInsert_keys_nodup {α : Type} (d : List (ℕ × α)) (k : ℕ) (v : α)
    (h : (d.map Prod.fst).Nodup) : ((dictInsert d k v).map Prod.fst).Nodup := by
  unfold dictInsert
  rw [List.map_cons, List.nodup_cons]
  refine ⟨?_, dictErase_keys_sub d k h⟩
  intro hmem
  rcases List.mem_map.1 hmem with ⟨⟨k', v'⟩, hm, hk⟩
  rcases List.mem_filter.1 hm with ⟨_, hcond⟩
  simp only [bne_iff_ne, ne_eq] at hcond
  exact hcond hk

/-- The score-change resolution preserves duplicate-free pending keys. -/
lemma resolveScoreChange_pending_nodup (now : ℕ) (st : BotState) (f : Fixture)
    (h : (st.pending.map Prod.fst).Nodup) :
    ((resolveScoreChange now st f).1.pending.map Prod.fst).Nodup := by
  unfold resolveScoreChange
  dsimp only
  split <;> split <;>
    first
    | exact dictErase_keys_sub st.pending f.fid h
    | exact h

/-- One fixture evaluation preserves duplicate-free pending keys: every
branch leaves `pending` alone, erases a key, or overwrites one. -/
lemma processFixture_pending_nodup (cfg : Config)
    (fetchStats : ℕ → Except Unit (ℕ × ℕ × ℕ × ℚ)) (pp : Predictor)
    (now : ℕ) (st : BotState) (f : Fixture)
    (h : (st.pending.map Prod.fst).Nodup) :
    ((processFixture cfg fetchStats pp now st f).1.pending.map Prod.fst).Nodup := by
  have h1 := resolveScoreChange_pending_nodup now st f h
  unfold processFixture
  dsimp only
  split
  · split
    · split
      · exact dictErase_keys_sub _ _ h1
      · exact h1
    · exact h1
  · split
    · exact h1
    · split
      · exact h1
      · split
        · exact dictInsert_keys_nodup _ _ _ h1
        · exact h1

/-- The fixture loop of a cycle preserves duplicate-free pending keys. -/
lemma runFixtures_pending_nodup (cfg : Config)
    (fetchStats : ℕ → Except Unit (ℕ × ℕ × ℕ × ℚ)) (pp : Predictor) (now : ℕ) :
    ∀ (fs : List Fixture) (st : BotState),
      (st.pending.map Prod.fst).Nodup →
      ((runFixtures cfg fetchStats pp now fs st).1.pending.map Prod.fst).Nodup := by
  intro fs
  induction fs with
  | nil => intro st h; exact h
  | cons f fs ih =>
    intro st h
    unfold runFixtures
    dsimp only
    split
    · exact processFixture_pending_nodup cfg fetchStats pp now st f h
    · exact ih _ (processFixture_pending_nodup cfg fetchStats pp now st f h)

/-- The expiry sweep preserves duplicate-free pending keys. -/
lemma sweep_pending_nodup (cfg : Config) (now : ℕ) (st : BotState)
    (h : (st.pending.map Prod.fst).Nodup) :
    ((sweep cfg now st).1.pending.map Prod.fst).Nodup :=
  h.sublist ((List.filter_sublist st.pending).map Prod.fst)

/-- A whole poll cycle preserves duplicate-free pending keys. -/
lemma runCycle_pending_nodup (cfg : Config)
    (fetchStats : ℕ → Except Unit (ℕ × ℕ × ℕ × ℚ)) (pp : Predictor) (now : ℕ)
    (fs : List Fixture) (st : BotState)
    (h : (st.pending.map Prod.fst).Nodup) :
    ((runCycle cfg fetchStats pp now fs st).1.pending.map Prod.fst).Nodup := by
  unfold runCycle
  dsimp only
  split
  · exact runFixtures_pending_nodup cfg fetchStats pp now fs st h
  · exact sweep_pending_nodup cfg now _ (runFixtures_pending_nodup cfg fetchStats pp now fs st h)

/-- With duplicate-free keys, at most one entry of an association list
carries a given key. -/
lemma keys_nodup_filter_le_one {α : Type} (d : List (ℕ × α))
    (h : (d.map Prod.fst).Nodup) (k : ℕ) :
    (d.filter (fun kv => kv.1 == k)).length ≤ 1 := by
  rw [← List.countP_eq_length_filter]
  have hmap : d.countP (fun kv => kv.1 == k) = (d.map Prod.fst).countP (fun x => x == k) := by
    rw [List.countP_map]
    rfl
  rw [hmap]
  have h2 := List.nodup_iff_count_le_one.1 h k
  rwa [List.count_eq_countP] at h2

/-- C8. Starting from a state whose `pending` dict has no duplicate fixture
keys (the shape every Python dict has), a whole poll cycle preserves that
shape, so at most one Pending alert record exists per fixture at any time:
every write to `pending` is a key-overwriting insertion or a removal, and no
loop operation can create a second concurrent record for the same fixture
id. -/
theorem c8_at_most_one_pending (cfg : Config)
    (fetchStats : ℕ → Except Unit (ℕ × ℕ × ℕ × ℚ)) (pp : Predictor) (now : ℕ)
    (fs : List Fixture) (st : BotState)
    (h : (st.pending.map Prod.fst).Nodup) :
    ∀ fid : ℕ,
      ((runCycle cfg fetchStats pp now fs st).1.pending.filter
        (fun kv => kv.1 == fid)).length ≤ 1 :=
  fun fid => keys_nodup_filter_le_one _
    (runCycle_pending_nodup cfg fetchStats pp now fs st h) fid

/-- C8 (witness). A concrete cycle over one live fixture keeps at most one
pending record per fixture id. -/
theorem c8_at_most_one_pending_witness :
    ((exState.pending.map Prod.fst).Nodup) ∧
    ((runCycle exCfg exFetch predict_probQ 1000 [exFix] exState).1.pending.filter
      (fun kv => kv.1 == 5)).length ≤ 1 :=
  ⟨by simp [exState], c8_at_most_one_pending exCfg exFetch predict_probQ 1000 [exFix]
    exState (by simp [exState]) 5⟩

/-- C4 (counterexample). The claim: a failed statistics fetch for one
fixture does not abort the evaluation of the remaining fixtures of the same
cycle.  With the oracle failing on fixture 1 only, fixture 2 — which on its
own produces an alert in the very same state and instant — produces nothing
when it comes after fixture 1: the `try` block wraps the whole cycle
(lines 228 and 347), not the single fixture, so the exception skips the rest
of the loop. -/
theorem c4_cycle_abort_cex :
    Event.alertSent 2 ∉
      (runCycle exCfg exFetchFail predict_probQ 1000 [exFix, exFix2] exEmpty).2 ∧
    Event.alertSent 2 ∈
      (runCycle exCfg exFetchFail predict_probQ 1000 [exFix2] exEmpty).2 := by
  constructor <;>
    norm_num [runCycle, runFixtures, processFixture, resolveScoreChange, sweep, exCfg,
      exFetchFail, exFix, exFix2, exEmpty, half_and_minute, within_windows, dictInsert,
      dictErase, predict_probQ, suggest_market, List.lookup, min_def, max_def]

/-- C4 (amended). A fetch failure while a fixture is being evaluated aborts
the remainder of the cycle: the exception propagates to the cycle-level
handler, so the fixtures after the failing one are not evaluated at all and
the expiry sweep of that cycle is skipped; the state mutations already made
stand, and every fixture is retried on the next cycle. -/
theorem c4_fetch_failure_aborts_cycle (cfg : Config)
    (fetchStats : ℕ → Except Unit (ℕ × ℕ × ℕ × ℚ)) (pp : Predictor) (now : ℕ)
    (st : BotState) (f : Fixture) (rest : List Fixture)
    (h : (processFixture cfg fetchStats pp now st f).2.2 = true) :
    runCycle cfg fetchStats pp now (f :: rest) st =
      ((processFixture cfg fetchStats pp now st f).1,
       (processFixture cfg fetchStats pp now st f).2.1) := by
  unfold runCycle runFixtures
  simp only [h, if_true]

/-- C4 (witness). The failing fetch on fixture 1 cuts the two-fixture cycle
short at fixture 1. -/
theorem c4_fetch_failure_aborts_cycle_witness :
    (processFixture exCfg exFetchFail predict_probQ 1000 exEmpty exFix).2.2 = true ∧
    runCycle exCfg exFetchFail predict_probQ 1000 [exFix, exFix2] exEmpty =
      ((processFixture exCfg exFetchFail predict_probQ 1000 exEmpty exFix).1,
       (processFixture exCfg exFetchFail predict_probQ 1000 exEmpty exFix).2.1) :=
  ⟨by norm_num [processFixture, resolveScoreChange, exCfg, exFetchFail, exFix, exEmpty,
      half_and_minute, within_windows, dictInsert, dictErase, List.lookup],
   c4_fetch_failure_aborts_cycle exCfg exFetchFail predict_probQ 1000 exEmpty exFix [exFix2]
     (by norm_num [processFixture, resolveScoreChange, exCfg, exFetchFail, exFix, exEmpty,
       half_and_minute, within_windows, dictInsert, dictErase, List.lookup])⟩

/-- In an association list with duplicate-free keys, the value of a key is
unique. -/
lemma assoc_nodup_val_eq {α : Type} {d : List (ℕ × α)}
    (hnd : (d.map Prod.fst).Nodup) {k : ℕ} {v w : α}
    (hv : (k, v) ∈ d) (hw : (k, w) ∈ d) : v = w := by
  induction d with
  | nil => cases hv
  | cons a t ih =>
    obtain ⟨k', x⟩ := a
    rw [List.map_cons, List.nodup_cons] at hnd
    rcases List.mem_cons.1 hv with h1 | h1 <;> rcases List.mem_cons.1 hw with h2 | h2
    · obtain ⟨hk1, hv1⟩ := Prod.mk.injEq .. ▸ h1
      obtain ⟨hk2, hv2⟩ := Prod.mk.injEq .. ▸ h2
      exact hv1.trans hv2.symm
    · exfalso
      obtain ⟨hk1, _⟩ := Prod.mk.injEq .. ▸ h1
      have hkm : k ∈ t.map Prod.fst := List.mem_map_of_mem Prod.fst h2
      rw [hk1] at hkm
      exact hnd.1 hkm
    · exfalso
      obtain ⟨hk2, _⟩ := Prod.mk.injEq .. ▸ h2
      have hkm : k ∈ t.map Prod.fst := List.mem_map_of_mem Prod.fst h1
      rw [hk2] at hkm
      exact hnd.1 hkm
    · exact ih hnd.2 h1 h2

/-- C6 (amended). A pending alert is edited to Failed by the end-of-cycle
sweep exactly when the current instant has passed its stored expiry plus the
grace period — and is removed from `pending` exactly then.  The sweep takes
no live-fixtures input at all, so membership of the fixture in the live set
plays no role: a vanished fixture's Pending alert is not failed at the
moment it vanishes, but only once its expiry-plus-grace instant passes. -/
theorem c6_failed_exactly_on_expiry (cfg : Config) (now : ℕ) (st : BotState)
    (fid : ℕ) (info : PendingInfo)
    (hnd : (st.pending.map Prod.fst).Nodup)
    (h : (fid, info) ∈ st.pending) :
    (Event.failedEdit fid ∈ (sweep cfg now st).2 ↔
      info.expireAt + cfg.graceSecs < now) ∧
    ((fid, info) ∈ (sweep cfg now st).1.pending ↔
      ¬ info.expireAt + cfg.graceSecs < now) := by
  unfold sweep
  dsimp only
  constructor
  · constructor
    · intro hmem
      rcases List.mem_map.1 hmem with ⟨⟨k, w⟩, hkw, hEq⟩
      injection hEq with hk
      subst hk
      rcases List.mem_filter.1 hkw with ⟨hmem', hcond⟩
      have hw : w = info := assoc_nodup_val_eq hnd hmem' h
      subst hw
      exact of_decide_eq_true hcond
    · intro hc
      exact List.mem_map.2 ⟨(fid, info), List.mem_filter.2 ⟨h, decide_eq_true hc⟩, rfl⟩
  · constructor
    · intro hmem
      rcases List.mem_filter.1 hmem with ⟨_, hcond⟩
      simpa using hcond
    · intro hc
      exact List.mem_filter.2 ⟨h, by simpa using hc⟩

/-- C6 (witness). One second past expiry-plus-grace, the sweep fails and
removes the pending alert of fixture 1. -/
theorem c6_failed_exactly_on_expiry_witness :
    ((exState.pending.map Prod.fst).Nodup) ∧ ((1, exInfo) ∈ exState.pending) ∧
    ((Event.failedEdit 1 ∈ (sweep exCfg 1031 exState).2 ↔
        exInfo.expireAt + exCfg.graceSecs < 1031) ∧
      (((1 : ℕ), exInfo) ∈ (sweep exCfg 1031 exState).1.pending ↔
        ¬ exInfo.expireAt + exCfg.graceSecs < 1031)) :=
  ⟨by simp [exState], by simp [exState],
    c6_failed_exactly_on_expiry exCfg 1031 exState 1 exInfo
      (by simp [exState]) (by simp [exState])⟩

/-- C6 (counterexample). The claim: a Pending alert transitions to Failed
when its fixture vanishes from the live-fixtures set while still Pending.
Running a whole cycle whose live set no longer contains fixture 1 — before
the alert's expiry — leaves the alert Pending and edits nothing: vanishing
does not trigger the transition. -/
theorem c6_vanish_not_failed_cex :
    (runCycle exCfg exFetch predict_probQ 1000 [] exState).1.pending.lookup 1 =
      some exInfo ∧
    Event.failedEdit 1 ∉ (runCycle exCfg exFetch predict_probQ 1000 [] exState).2 := by
  constructor
  · rfl
  · simp [runCycle, runFixtures, sweep, exState, exInfo, exCfg]

/-- The per-fixture evaluation only ever appends Failed or alert events
after the score-change resolution, so a Success edit occurs in a cycle
exactly when the score-change resolution emitted it. -/
lemma processFixture_successEdit_iff (cfg : Config)
    (fetchStats : ℕ → Except Unit (ℕ × ℕ × ℕ × ℚ)) (pp : Predictor)
    (now : ℕ) (st : BotState) (f : Fixture) (k : ℕ) :
    (Event.successEdit k ∈ (processFixture cfg fetchStats pp now st f).2.1 ↔
      Event.successEdit k ∈ (resolveScoreChange now st f).2) := by
  unfold processFixture
  dsimp only
  split
  · split
    · split
      · simp
      · exact Iff.rfl
    · exact Iff.rfl
  · split
    · exact Iff.rfl
    · split
      · exact Iff.rfl
      · split
        · simp
        · exact Iff.rfl

/-- When the tracked score changes while an alert is pending, the emitted
events are the Success pair when `now` is at most the stored expiry, and
nothing otherwise. -/
lemma resolveScoreChange_events_of_change (now : ℕ) (st : BotState) (f : Fixture)
    (prev : ℕ × ℕ) (info : PendingInfo)
    (hro : st.recentOutcomes.lookup f.fid = some prev)
    (hch : (f.hg, f.ag) ≠ prev)
    (hpend : st.pending.lookup f.fid = some info) :
    (resolveScoreChange now st f).2 =
      if now ≤ info.expireAt then [Event.successEdit f.fid, Event.successPing f.fid]
      else [] := by
  unfold resolveScoreChange
  simp only [hro, Option.isSome_some, if_true, Option.getD_some, hpend]
  rw [if_pos hch]

/-- C3 (amended). When the tracked score of a fixture changes while its
alert is Pending, the alert is edited to Success exactly when the change is
observed at `now ≤ expire_at = emission + lookahead` — the grace period is
NOT part of the success window (it only delays the Failed edit); a change
observed during the grace interval removes the Pending alert without any
Success edit. -/
theorem c3_success_iff_within_lookahead (cfg : Config)
    (fetchStats : ℕ → Except Unit (ℕ × ℕ × ℕ × ℚ)) (pp : Predictor)
    (now : ℕ) (st : BotState) (f : Fixture) (info : PendingInfo) (prev : ℕ × ℕ)
    (hro : st.recentOutcomes.lookup f.fid = some prev)
    (hch : (f.hg, f.ag) ≠ prev)
    (hpend : st.pending.lookup f.fid = some info) :
    (Event.successEdit f.fid ∈ (processFixture cfg fetchStats pp now st f).2.1 ↔
      now ≤ info.expireAt) := by
  rw [processFixture_successEdit_iff]
  rw [resolveScoreChange_events_of_change now st f prev info hro hch hpend]
  split_ifs with h
  · simp [h]
  · simp [h]

/-- C3 (counterexample). The claim: a score change before
`expiry = emission + lookahead + grace` turns the alert into Success.  The
alert of `exInfo` expires at 1000 with grace 30; the goal arrives at 1020 —
before the claimed expiry 1030 — yet no Success edit is emitted: the source
compares against `expire_at` alone (line 262), so the alert is silently
dropped. -/
theorem c3_grace_not_counted_cex :
    exState.recentOutcomes.lookup 1 = some (0, 0) ∧
    ((1, 0) : ℕ × ℕ) ≠ (0, 0) ∧
    exState.pending.lookup 1 = some exInfo ∧
    1020 ≤ exInfo.expireAt + exCfg.graceSecs ∧
    Event.successEdit 1 ∉
      (processFixture exCfg exFetch predict_probQ 1020 exState exFixGoal).2.1 := by
  refine ⟨rfl, by decide, rfl, by norm_num [exInfo, exCfg], ?_⟩
  norm_num [processFixture, resolveScoreChange, exCfg, exFetch, exFixGoal, exState,
    exInfo, half_and_minute, within_windows, dictInsert, dictErase, predict_probQ,
    suggest_market, List.lookup, min_def, max_def]
  intro hEq
  exact Event.noConfusion hEq

/-- C3 (witness). A goal observed at 990, before the stored expiry 1000,
yields the Success edit. -/
theorem c3_success_iff_within_lookahead_witness :
    exState.recentOutcomes.lookup 1 = some (0, 0) ∧
    ((1, 0) : ℕ × ℕ) ≠ (0, 0) ∧
    exState.pending.lookup 1 = some exInfo ∧
    (Event.successEdit 1 ∈
        (processFixture exCfg exFetch predict_probQ 990 exState exFixGoal).2.1 ↔
      990 ≤ exInfo.expireAt) :=
  ⟨rfl, by decide, rfl,
    c3_success_iff_within_lookahead exCfg exFetch predict_probQ 990 exState exFixGoal
      exInfo (0, 0) rfl (by decide) rfl⟩

/-- The score-change resolution emits Success events only. -/
lemma resolveScoreChange_events_sub (now : ℕ) (st : BotState) (f : Fixture) :
    ∀ e ∈ (resolveScoreChange now st f).2,
      e = Event.successEdit f.fid ∨ e = Event.successPing f.fid := by
  unfold resolveScoreChange
  dsimp only
  intro e he
  repeat' split at he
  all_goals simp at he
  all_goals tauto

/-- C2 (amended). A new Pending alert is emitted for a fixture only when the
minute lies inside the configured alert window, the cooldown has elapsed
since the fixture's last alert, the statistics fetch succeeded, and the
predicted probability reaches the threshold.  The source never checks
whether a Pending alert already exists: an existing record does not block
emission and is silently overwritten (see the counterexample). -/
theorem c2_alert_creation_conditions (cfg : Config)
    (fetchStats : ℕ → Except Unit (ℕ × ℕ × ℕ × ℚ)) (pp : Predictor)
    (now : ℕ) (st : BotState) (f : Fixture)
    (h : Event.alertSent f.fid ∈ (processFixture cfg fetchStats pp now st f).2.1) :
    within_windows cfg (half_and_minute f.elapsed).1 (half_and_minute f.elapsed).2 = true ∧
    cfg.cooldownSecs ≤ now - ((st.lastAlertTs.lookup f.fid).getD 0) ∧
    ∃ s so c pi, fetchStats f.fid = Except.ok (s, so, c, pi) ∧
      cfg.threshold ≤ pp cfg.lookaheadMin s so c pi (half_and_minute f.elapsed).2
        (f.hg, f.ag) := by
  have hals : Event.alertSent f.fid ∉ (resolveScoreChange now st f).2 := by
    intro hmem
    rcases resolveScoreChange_events_sub now st f _ hmem with he | he <;> cases he
  have hlat := resolveScoreChange_lastAlertTs now st f
  unfold processFixture at h
  dsimp only at h
  split at h
  · exfalso
    split at h
    · split at h
      · rcases List.mem_append.1 h with h' | h'
        · exact hals h'
        · simp at h'
      · exact hals h
    · exact hals h
  · rename_i hwin
    split at h
    · exact absurd h hals
    · rename_i hcool
      split at h
      · exact absurd h hals
      · rename_i s so c pi heq
        split at h
        · rename_i hthr
          have hw : within_windows cfg (half_and_minute f.elapsed).1
              (half_and_minute f.elapsed).2 = true := by
            revert hwin
            cases within_windows cfg (half_and_minute f.elapsed).1
              (half_and_minute f.elapsed).2 <;> simp
          rw [hlat] at hcool
          exact ⟨hw, Nat.le_of_not_lt hcool, s, so, c, pi, heq, hthr⟩
        · exact absurd h hals

/-- C2 (counterexample). The claim requires that no Pending alert exists
before a new one is created.  In `exState` the alert of `exInfo` is still
Pending for fixture 1 (it expires at 1000 and is well within its window),
the cooldown of 240 s elapsed at 540, and at `now = 1000` the loop emits a
fresh alert for fixture 1 anyway: the source checks only the cooldown (line
301), never `pending` membership. -/
theorem c2_no_pending_check_cex :
    (exState.pending.lookup 1).isSome = true ∧
    Event.alertSent 1 ∈
      (processFixture exCfg exFetch predict_probQ 1000 exState exFix).2.1 := by
  constructor
  · rfl
  · norm_num [processFixture, resolveScoreChange, exCfg, exFetch, exFix, exState,
      exInfo, half_and_minute, within_windows, dictInsert, dictErase, predict_probQ,
      suggest_market, List.lookup, min_def, max_def]

/-- C2 (witness). The alert emitted at `now = 1000` for fixture 1 satisfies
the window, cooldown and threshold conditions. -/
theorem c2_alert_creation_conditions_witness :
    Event.alertSent 1 ∈
      (processFixture exCfg exFetch predict_probQ 1000 exState exFix).2.1 ∧
    (within_windows exCfg (half_and_minute exFix.elapsed).1
        (half_and_minute exFix.elapsed).2 = true ∧
      exCfg.cooldownSecs ≤ 1000 - ((exState.lastAlertTs.lookup exFix.fid).getD 0) ∧
      ∃ s so c pi, exFetch exFix.fid = Except.ok (s, so, c, pi) ∧
        exCfg.threshold ≤ predict_probQ exCfg.lookaheadMin s so c pi
          (half_and_minute exFix.elapsed).2 (exFix.hg, exFix.ag)) :=
  ⟨by norm_num [processFixture, resolveScoreChange, exCfg, exFetch, exFix, exState,
      exInfo, half_and_minute, within_windows, dictInsert, dictErase, predict_probQ,
      suggest_market, List.lookup, min_def, max_def],
   c2_alert_creation_conditions exCfg exFetch predict_probQ 1000 exState exFix
     (by norm_num [processFixture, resolveScoreChange, exCfg, exFetch, exFix, exState,
       exInfo, half_and_minute, within_windows, dictInsert, dictErase, predict_probQ,
       suggest_market, List.lookup, min_def, max_def])⟩

end GoalAlert
